import Mathlib

/-!
Verification of the Coup turn-resolution engine (`coup_basic.py`).

The Python source is shallowly embedded: every mutating method becomes a
pure function threading the relevant state (player, deck, game state), and
every decision-maker call (console input or AI randomness) becomes an
explicit oracle parameter.  `random.shuffle` is modelled by an explicit
permutation parameter `sh`; theorems that need the shuffle to behave like a
shuffle take the hypothesis that `sh` permutes its input.
-/

/-- Role enumeration (`class Role(Enum)`). -/
inductive Role
  | duke
  | assassin
  | captain
  | ambassador
  | contessa
  deriving DecidableEq, Repr

/-- Action type enumeration (`class ActionType(Enum)`). -/
inductive ActionType
  | income
  | foreign_aid
  | coup
  | tax
  | assassinate
  | steal
  | exchange
  deriving DecidableEq, Repr

/-- Per-action metadata (`@dataclass ActionMetadata`); the cosmetic
`name_cn` field is omitted. -/
structure ActionMetadata where
  requires_target : Bool
  required_role : Option Role
  counterable_by : List Role
  coins_cost : Int
  deriving DecidableEq, Repr

/-- The static configuration table `ACTION_CONFIG`. -/
def ACTION_CONFIG : ActionType → ActionMetadata
  | .income => ⟨false, none, [], 0⟩
  | .foreign_aid => ⟨false, none, [Role.duke], 0⟩
  | .coup => ⟨true, none, [], 7⟩
  | .tax => ⟨false, some Role.duke, [], 0⟩
  | .assassinate => ⟨true, some Role.assassin, [Role.contessa], 3⟩
  | .steal => ⟨true, some Role.captain, [Role.captain, Role.ambassador], 0⟩
  | .exchange => ⟨false, some Role.ambassador, [], 0⟩

/-- A single influence card (`@dataclass Influence`); created face-down in
the source (`is_revealed: bool = False`). -/
structure Influence where
  role : Role
  is_revealed : Bool
  deriving DecidableEq, Repr

/-- `Influence.reveal`: one-way transition to face-up. -/
def Influence.reveal (i : Influence) : Influence :=
  { i with is_revealed := true }

/-- Player state (`class Player`).  The cached `self.alive` attribute is
omitted: every engine read of aliveness goes through the recomputing
`is_alive` property, and the cached attribute is only ever read by display
code (`__str__`).  The `action_history` log is likewise display-only. -/
structure Player where
  player_id : Nat
  name : String
  coins : Int
  influence : List Influence
  deriving DecidableEq, Repr

/-- `Player.is_alive` property: `not all(i.is_reveal for i in self.influence)`. -/
def Player.is_alive (p : Player) : Bool :=
  !(p.influence.all (fun i => i.is_revealed))

/-- `Player.hidden_cards` property: roles of the unrevealed influences. -/
def Player.hidden_cards (p : Player) : List Role :=
  (p.influence.filter (fun i => !i.is_revealed)).map (fun i => i.role)

/-- `Player.get_hidden_cards`: the unrevealed influence cards themselves. -/
def Player.get_hidden_cards (p : Player) : List Influence :=
  p.influence.filter (fun i => !i.is_revealed)

/-- `Player.revealed_cards` property. -/
def Player.revealed_cards (p : Player) : List Role :=
  (p.influence.filter (fun i => i.is_revealed)).map (fun i => i.role)

/-- `Player.has_hidden_role`: an unrevealed influence with this role exists. -/
def Player.has_hidden_role (p : Player) (r : Role) : Bool :=
  p.influence.any (fun i => i.role == r && !i.is_revealed)

/-- `Player.get_coin`. -/
def Player.get_coin (p : Player) (n : Int) : Player :=
  { p with coins := p.coins + n }

/-- `Player.lose_coin` (no non-negativity check in the source). -/
def Player.lose_coin (p : Player) (n : Int) : Player :=
  { p with coins := p.coins - n }

/-- Reveal the n-th unrevealed influence of a hand, leaving everything else
in place (helper for `lose_influence`, whose concrete implementations
reveal one chosen card of `get_hidden_cards` in place). -/
def revealNthHidden : List Influence → Nat → List Influence
  | [], _ => []
  | i :: rest, n =>
    if i.is_revealed then i :: revealNthHidden rest n
    else
      match n with
      | 0 => i.reveal :: rest
      | Nat.succ m => i :: revealNthHidden rest m

/-- `lose_influence` as implemented by `HumanPlayer`/`ComputerPlayer`: with
no hidden card it does nothing (prints only); with exactly one hidden card
that card is revealed without a choice; with two or more the decision-maker
picks one, modelled by the oracle index `pick` (reduced mod the hidden
count, since both implementations only ever produce an in-range pick). -/
def Player.lose_influence (p : Player) (pick : Nat) : Player :=
  let cnt := p.get_hidden_cards.length
  if cnt = 0 then p
  else if cnt = 1 then { p with influence := revealNthHidden p.influence 0 }
  else { p with influence := revealNthHidden p.influence (pick % cnt) }

/-- `Player.get_available_actions`: the legal-action menu. -/
def Player.get_available_actions (p : Player) : List ActionType :=
  let actions : List ActionType :=
    [ActionType.income, ActionType.steal, ActionType.tax,
     ActionType.exchange, ActionType.foreign_aid]
  let actions := if p.coins ≥ 3 then actions ++ [ActionType.assassinate] else actions
  let actions := if p.coins ≥ 7 then actions ++ [ActionType.coup] else actions
  if p.coins ≥ 10 then [ActionType.coup] else actions

/-- `Deck.draw`: pop `num` cards off the top (Python pops from the end of
the list); raises when the deck is too small, modelled as `none`.  The
drawn cards come out in pop order (last element first). -/
def Deck.draw (num : Nat) (cards : List Role) : Option (List Role × List Role) :=
  if num > cards.length then none
  else some (cards.reverse.take num, (cards.reverse.drop num).reverse)

/-- `Deck.return_cards`: append the cards and reshuffle.  The shuffle is an
explicit permutation parameter `sh`. -/
def Deck.return_cards (deck : List Role) (cards : List Role)
    (sh : List Role → List Role) : List Role :=
  sh (deck ++ cards)

/-- The unrecoverable errors the engine can raise (`ValueError`,
`IndexError`, `TypeError`/`AttributeError` on a missing target). -/
inductive Err
  | drawTooMany
  | notEnoughCoins
  | idOutOfRange
  | missingTarget
  | badSelection
  | noHidden
  deriving DecidableEq, Repr

/-- `GameManager.exchange_single_card`: put one named unrevealed card back
into the deck and draw a replacement, appended face-down.  Returns the new
deck, the new player and the source's boolean result. -/
def exchange_single_card (deck : List Role) (p : Player) (role_to_return : Role)
    (sh : List Role → List Role) : Except Err (List Role × Player × Bool) :=
  let hidden_cards := p.get_hidden_cards
  if hidden_cards.isEmpty then Except.ok (deck, p, false)
  else
    match hidden_cards.find? (fun card => card.role == role_to_return) with
    | none => Except.ok (deck, p, false)
    | some target_card =>
      -- `player.influence.remove(target_card)` removes the first influence
      -- equal (by value) to the found card.
      let influence1 := p.influence.erase target_card
      let deck1 := Deck.return_cards deck [role_to_return] sh
      match Deck.draw 1 deck1 with
      | none => Except.error Err.drawTooMany
      | some (drawn, deck2) =>
        let new_card := drawn.headD Role.duke
        Except.ok (deck2, { p with influence := influence1 ++ [⟨new_card, false⟩] }, true)

/-- Outcome marker for `exchange_two_cards`: the source raises
`ValueError` at two points after having already mutated state, so the
embedding returns the state reached at the moment of the raise together
with a result tag instead of discarding it. -/
inductive ExResult
  | ok
  | errNoHidden
  | errDraw
  | errSelection
  deriving DecidableEq, Repr

/-- `GameManager.exchange_two_cards`: the AMBASSADOR two-card exchange.
`select` is the decision-maker's `select_cards_to_keep`; `sh` is the
shuffle used by `return_cards`.  The removal loop
`for card in hidden_cards: player.influence.remove(card)` is embedded as a
fold of single removals, exactly as in the source. -/
def exchange_two_cards (deck : List Role) (p : Player)
    (select : List Role → List Role → Nat → List Role)
    (sh : List Role → List Role) : List Role × Player × ExResult :=
  let hidden_cards := p.get_hidden_cards
  let keep_count := hidden_cards.length
  if keep_count = 0 then (deck, p, ExResult.errNoHidden)
  else
    match Deck.draw 2 deck with
    | none => (deck, p, ExResult.errDraw)
    | some (new_cards, deck1) =>
      let selected := select new_cards (hidden_cards.map (fun i => i.role)) keep_count
      if selected.length ≠ keep_count then (deck1, p, ExResult.errSelection)
      else
        let influence1 := hidden_cards.foldl (fun l card => l.erase card) p.influence
        let influence2 := influence1 ++ selected.map (fun c => Influence.mk c false)
        let all_cards := new_cards ++ hidden_cards.map (fun i => i.role)
        let return_cards := all_cards.filter (fun c => !(selected.contains c))
        let deck2 :=
          if return_cards.isEmpty then deck1
          else Deck.return_cards deck1 return_cards sh
        (deck2, { p with influence := influence2 }, ExResult.ok)

/-- The mutable state `GameManager` threads through a game. -/
structure GameState where
  players : List Player
  deck : List Role
  current_player_index : Nat
  turn_count : Nat
  total_player_num : Nat
  deriving DecidableEq, Repr

/-- Placeholder used with `List.getD`; every lookup in the theorems is
guarded by an in-range hypothesis or evaluated on concrete states. -/
def dummyPlayer : Player := ⟨0, "", 0, []⟩

/-- Replace the player at list index `i` by `f` of its current value
(embedding of an in-place mutation of `self.players[i]`). -/
def GameState.updP (gs : GameState) (i : Nat) (f : Player → Player) : GameState :=
  { gs with players := gs.players.set i (f (gs.players.getD i dummyPlayer)) }

/-- The decision-maker and randomness oracles for one turn: the chosen
action and target, `challenge_or_not` (asked player index, claimant id,
claimed role), `deal_challenge` (reveal-proof decision), the
`lose_influence` pick, `target_answer` (asked player id, action),
`select_cards_to_keep` and the shuffle. -/
structure Oracles where
  act : ActionType
  tgt : Option Nat
  chal : Nat → Nat → Role → Bool
  willReveal : Nat → Bool
  pick : Nat → Nat
  tAnswer : Nat → ActionType → Option Role
  select : List Role → List Role → Nat → List Role
  sh : List Role → List Role

/-- `GameManager.deal_challenge`: resolve a challenge of `role` claimed by
the player at index `i1`, challenged by the player at index `i2`.  Returns
the updated state and the source's boolean (`true` = claim disproven). -/
def GameManager.deal_challenge (gs : GameState) (i1 i2 : Nat) (role : Role)
    (O : Oracles) : Except Err (GameState × Bool) :=
  let pl1 := gs.players.getD i1 dummyPlayer
  if !(pl1.has_hidden_role role) then
    Except.ok (gs.updP i1 (fun p => p.lose_influence (O.pick i1)), true)
  else if O.willReveal i1 then
    match exchange_single_card gs.deck pl1 role O.sh with
    | Except.error e => Except.error e
    | Except.ok (deck1, pl1x, _b) =>
      let gs1 : GameState := { gs with deck := deck1, players := gs.players.set i1 pl1x }
      let gs2 := gs1.updP i2 (fun p => p.lose_influence (O.pick i2))
      Except.ok (gs2, false)
  else
    Except.ok (gs.updP i1 (fun p => p.lose_influence (O.pick i1)), true)

/-- `GameManager.process_action_cost` for the player at index `i`. -/
def GameManager.process_action_cost (gs : GameState) (i : Nat) (act : ActionType) :
    Except Err GameState :=
  let cost := (ACTION_CONFIG act).coins_cost
  if cost = 0 then Except.ok gs
  else
    let p := gs.players.getD i dummyPlayer
    if p.coins < cost then Except.error Err.notEnoughCoins
    else Except.ok (gs.updP i (fun q => q.lose_coin cost))

/-- Index search backing `get_player_by_id`
(`next(p for p in self.players if p.player_id == pid)`). -/
def findPlayerIdx : List Player → Nat → Option Nat
  | [], _ => none
  | p :: rest, pid =>
    if p.player_id = pid then some 0
    else (findPlayerIdx rest pid).map (fun k => k + 1)

/-- `GameManager.get_player_by_id`: range check then linear search;
returns the list index of the found player. -/
def GameManager.get_player_by_id (gs : GameState) (pid : Nat) :
    Except Err (Option Nat) :=
  if pid < gs.total_player_num then Except.ok (findPlayerIdx gs.players pid)
  else Except.error Err.idOutOfRange

/-- First candidate seat index at or after `start` holding a living
player; `fuel` bounds the source's `while` loop (one lap suffices whenever
a living player exists). -/
def nextAliveFrom (players : List Player) (start : Nat) : Nat → Nat
  | 0 => start
  | Nat.succ fuel =>
    if (players.getD start dummyPlayer).is_alive then start
    else nextAliveFrom players ((start + 1) % players.length) fuel

/-- `GameManager.get_current_player` followed by the turn-count increment:
advance to the next living seat and bump `turn_count`. -/
def GameState.advance (gs : GameState) : GameState :=
  let t := nextAliveFrom gs.players
    ((gs.current_player_index + 1) % gs.total_player_num) gs.players.length
  { gs with current_player_index := t, turn_count := gs.turn_count + 1 }

/-- Seat indices visited by the source's polling loops:
`(base + offset) % total` for `offset` in `1..total`. -/
def pollIdxs (n : Nat) (base : Nat) : List Nat :=
  (List.range n).map (fun k => (base + 1 + k) % n)

/-- The polling predicate of the challenge loops: skip the excluded seat
(the identity test against the excluded player) and dead players, then ask
`challenge_or_not`.  `skip` is the excluded list index, `claimant` the
claimant's player id. -/
def challengePred (gs : GameState) (skip claimant : Nat) (role : Role) (O : Oracles)
    (i : Nat) : Bool :=
  decide (i ≠ skip) && (gs.players.getD i dummyPlayer).is_alive && O.chal i claimant role

/-- The polling predicate of the undirected counter-declaration loop:
skip the actor and dead players, then ask `target_answer`. -/
def counterPred (gs : GameState) (skip : Nat) (O : Oracles) (i : Nat) : Bool :=
  decide (i ≠ skip) && (gs.players.getD i dummyPlayer).is_alive
    && (O.tAnswer (gs.players.getD i dummyPlayer).player_id O.act).isSome

/-- How a turn of `run_game` ended: the action's executor ran, or one of
the `continue` statements ended the turn early (challenge or counter
cancelled the action). -/
inductive TurnOutcome
  | executed
  | cancelled
  deriving DecidableEq, Repr

/-- `GameManager.execute_action`: dispatch to the per-action handlers.
Each handler mirrors its Python `execute` method; the returned boolean is
the handler's result (ignored by `run_game`). -/
def GameManager.execute_action (gs : GameState) (O : Oracles) :
    Except Err (GameState × Bool) :=
  let c := gs.current_player_index
  match O.act with
  | ActionType.income => Except.ok (gs.updP c (fun p => p.get_coin 1), true)
  | ActionType.foreign_aid => Except.ok (gs.updP c (fun p => p.get_coin 2), true)
  | ActionType.tax => Except.ok (gs.updP c (fun p => p.get_coin 3), true)
  | ActionType.steal =>
    match O.tgt with
    | none => Except.error Err.missingTarget
    | some pid =>
      match GameManager.get_player_by_id gs pid with
      | Except.error e => Except.error e
      | Except.ok none => Except.ok (gs, false)
      | Except.ok (some ti) =>
        let target := gs.players.getD ti dummyPlayer
        let stolen := min 2 target.coins
        let gs1 := gs.updP ti (fun p => p.lose_coin stolen)
        let gs2 := gs1.updP c (fun p => p.get_coin stolen)
        Except.ok (gs2, true)
  | ActionType.assassinate =>
    match O.tgt with
    | none => Except.error Err.missingTarget
    | some pid =>
      match GameManager.get_player_by_id gs pid with
      | Except.error e => Except.error e
      | Except.ok none => Except.ok (gs, false)
      | Except.ok (some ti) =>
        Except.ok (gs.updP ti (fun p => p.lose_influence (O.pick ti)), true)
  | ActionType.coup =>
    match O.tgt with
    | none => Except.error Err.missingTarget
    | some pid =>
      match GameManager.get_player_by_id gs pid with
      | Except.error e => Except.error e
      | Except.ok none => Except.ok (gs, false)
      | Except.ok (some ti) =>
        Except.ok (gs.updP ti (fun p => p.lose_influence (O.pick ti)), true)
  | ActionType.exchange =>
    match exchange_two_cards gs.deck (gs.players.getD c dummyPlayer) O.select O.sh with
    | (deck1, p1, ExResult.ok) =>
      Except.ok ({ gs with deck := deck1, players := gs.players.set c p1 }, true)
    | (_, _, ExResult.errNoHidden) => Except.error Err.noHidden
    | (_, _, ExResult.errDraw) => Except.error Err.drawTooMany
    | (_, _, ExResult.errSelection) => Except.error Err.badSelection

/-- The claim-challenge phase of `run_game`: poll every other living
player in seat order after the actor and resolve the first challenge.
Returns the updated state and whether the turn continues (`false` means
the `continue` after a successful challenge ended the turn). -/
def claimChallengePhase (gs : GameState) (O : Oracles) :
    Except Err (GameState × Bool) :=
  match (ACTION_CONFIG O.act).required_role with
  | none => Except.ok (gs, true)
  | some role =>
    let n := gs.total_player_num
    let c := gs.current_player_index
    let actor := gs.players.getD c dummyPlayer
    match (pollIdxs n c).find? (challengePred gs c actor.player_id role O) with
    | none => Except.ok (gs, true)
    | some chIdx =>
      match GameManager.deal_challenge gs c chIdx role O with
      | Except.error e => Except.error e
      | Except.ok (gs1, result) =>
        if result then Except.ok (gs1.advance, false) else Except.ok (gs1, true)

/-- The bystander counter-declaration loop of `run_game` (the
`elif ACTION_CONFIG[...].counterable_by:` branch at line 1189): it is
nested inside the truthy-target block as the `elif` of
`if target_choice:`, so it runs only when a truthy-target counterable
action's target declined to counter.  It polls every other living player
(in seat order after the actor) for a counter declaration and then polls
for a challenge of the first declared counter. -/
def undirectedCounterPhase (gs : GameState) (O : Oracles) :
    Except Err (GameState × Bool) :=
  let n := gs.total_player_num
  let c := gs.current_player_index
  match (pollIdxs n c).find? (counterPred gs c O) with
  | none => Except.ok (gs, true)
  | some pi =>
    let potential_counter := gs.players.getD pi dummyPlayer
    match O.tAnswer potential_counter.player_id O.act with
    | none => Except.ok (gs, true)
    | some counter_choice =>
      match (pollIdxs n c).find?
          (challengePred gs pi potential_counter.player_id counter_choice O) with
      | none => Except.ok (gs.advance, false)
      | some q =>
        match GameManager.deal_challenge gs pi q counter_choice O with
        | Except.error e => Except.error e
        | Except.ok (gs1, result) =>
          if !result then Except.ok (gs1.advance, false)
          else Except.ok (gs1, true)

/-- The counter phase of `run_game` for a truthy target id on a
counterable action: ask the target for a counter role.  If the target
declares one, poll the others for a challenge of that counter and —
exactly as the source does — resolve the challenge with
`self.current_player` (the actor) as the accused.  If the target
declines, fall through to the nested `elif` that polls bystanders for a
counter (`undirectedCounterPhase`). -/
def targetedCounterPhase (gs : GameState) (pid : Nat) (O : Oracles) :
    Except Err (GameState × Bool) :=
  match GameManager.get_player_by_id gs pid with
  | Except.error e => Except.error e
  | Except.ok none => Except.error Err.missingTarget
  | Except.ok (some ti) =>
    let target_player := gs.players.getD ti dummyPlayer
    match O.tAnswer target_player.player_id O.act with
    | none =>
      if (ACTION_CONFIG O.act).counterable_by.isEmpty then Except.ok (gs, true)
      else undirectedCounterPhase gs O
    | some target_choice =>
      let n := gs.total_player_num
      match (pollIdxs n target_player.player_id).find?
          (challengePred gs ti target_player.player_id target_choice O) with
      | none => Except.ok (gs.advance, false)
      | some q =>
        match GameManager.deal_challenge gs gs.current_player_index q target_choice O with
        | Except.error e => Except.error e
        | Except.ok (gs1, result) =>
          if !result then Except.ok (gs1.advance, false)
          else Except.ok (gs1, true)

/-- One iteration of the `while` loop of `GameManager.run_game`: claim
challenge, cost, counter phase, execution, seat advance.  The whole
counter block is guarded by `if choice["target_id"] and
ACTION_CONFIG[...].counterable_by:`, so a falsy target id — `None` for
FOREIGN_AID, or the integer `0` — skips counter polling entirely and the
action executes; the bystander poll is the nested `elif`, reachable only
through a truthy-target action whose target declined. -/
def runTurn (gs : GameState) (O : Oracles) : Except Err (GameState × TurnOutcome) :=
  match claimChallengePhase gs O with
  | Except.error e => Except.error e
  | Except.ok (gs1, false) => Except.ok (gs1, TurnOutcome.cancelled)
  | Except.ok (gs1, true) =>
    match GameManager.process_action_cost gs1 gs1.current_player_index O.act with
    | Except.error e => Except.error e
    | Except.ok gs2 =>
      let truthyTgt := match O.tgt with
        | some k => decide (k ≠ 0)
        | none => false
      let counterRes :=
        if truthyTgt && !(ACTION_CONFIG O.act).counterable_by.isEmpty then
          targetedCounterPhase gs2 (O.tgt.getD 0) O
        else Except.ok (gs2, true)
      match counterRes with
      | Except.error e => Except.error e
      | Except.ok (gs3, false) => Except.ok (gs3, TurnOutcome.cancelled)
      | Except.ok (gs3, true) =>
        match GameManager.execute_action gs3 O with
        | Except.error e => Except.error e
        | Except.ok (gs4, _b) => Except.ok (gs4.advance, TurnOutcome.executed)

/-! ### Basic lemmas about the embedded operations -/

theorem updP_deck (gs : GameState) (i : Nat) (f : Player → Player) :
    (gs.updP i f).deck = gs.deck := rfl

theorem updP_total (gs : GameState) (i : Nat) (f : Player → Player) :
    (gs.updP i f).total_player_num = gs.total_player_num := rfl

theorem updP_cpi (gs : GameState) (i : Nat) (f : Player → Player) :
    (gs.updP i f).current_player_index = gs.current_player_index := rfl

theorem updP_length (gs : GameState) (i : Nat) (f : Player → Player) :
    (gs.updP i f).players.length = gs.players.length := by
  simp [GameState.updP]

theorem advance_players (gs : GameState) : gs.advance.players = gs.players := rfl

theorem getD_set_self (l : List Player) (i : Nat) (a : Player) (h : i < l.length) :
    (l.set i a).getD i dummyPlayer = a := by
  simp [List.getD, List.getElem?_set_self', h]

theorem getD_set_ne (l : List Player) (i j : Nat) (a : Player) (h : j ≠ i) :
    (l.set i a).getD j dummyPlayer = l.getD j dummyPlayer := by
  simp [List.getD, List.getElem?_set_ne (fun hh => h hh.symm)]

theorem updP_players (gs : GameState) (i : Nat) (f : Player → Player) :
    (gs.updP i f).players = gs.players.set i (f (gs.players.getD i dummyPlayer)) := rfl

theorem getD_updP_self (gs : GameState) (i : Nat) (f : Player → Player)
    (h : i < gs.players.length) :
    (gs.updP i f).players.getD i dummyPlayer = f (gs.players.getD i dummyPlayer) := by
  rw [updP_players]
  exact getD_set_self _ _ _ h

theorem getD_updP_ne (gs : GameState) (i j : Nat) (f : Player → Player) (h : j ≠ i) :
    (gs.updP i f).players.getD j dummyPlayer = gs.players.getD j dummyPlayer := by
  rw [updP_players]
  exact getD_set_ne _ _ _ _ h

theorem lose_coin_influence (p : Player) (n : Int) : (p.lose_coin n).influence = p.influence := rfl

theorem lose_coin_id (p : Player) (n : Int) : (p.lose_coin n).player_id = p.player_id := rfl

theorem lose_coin_coins (p : Player) (n : Int) : (p.lose_coin n).coins = p.coins - n := rfl

theorem lose_coin_hidden (p : Player) (n : Int) :
    (p.lose_coin n).get_hidden_cards = p.get_hidden_cards := rfl

theorem lose_coin_has_hidden (p : Player) (n : Int) (r : Role) :
    (p.lose_coin n).has_hidden_role r = p.has_hidden_role r := rfl

theorem lose_influence_coins (p : Player) (pick : Nat) :
    (p.lose_influence pick).coins = p.coins := by
  by_cases h0 : p.get_hidden_cards.length = 0
  · simp [Player.lose_influence, h0]
  · by_cases h1 : p.get_hidden_cards.length = 1 <;>
      simp [Player.lose_influence, h0, h1]

theorem lose_influence_id (p : Player) (pick : Nat) :
    (p.lose_influence pick).player_id = p.player_id := by
  by_cases h0 : p.get_hidden_cards.length = 0
  · simp [Player.lose_influence, h0]
  · by_cases h1 : p.get_hidden_cards.length = 1 <;>
      simp [Player.lose_influence, h0, h1]

/-- Revealing the n-th hidden influence of a hand removes exactly one
entry from the hidden sub-list. -/
theorem revealNthHidden_count (l : List Influence) (n : Nat)
    (h : n < (l.filter (fun i => !i.is_revealed)).length) :
    ((revealNthHidden l n).filter (fun i => !i.is_revealed)).length + 1
      = (l.filter (fun i => !i.is_revealed)).length := by
  induction l generalizing n with
  | nil => simp at h
  | cons i rest ih =>
    by_cases hrev : i.is_revealed
    · rw [show revealNthHidden (i :: rest) n = i :: revealNthHidden rest n from by
        simp [revealNthHidden, hrev]]
      simp only [List.filter_cons, hrev, Bool.not_true] at h ⊢
      simp only [Bool.false_eq_true, if_false] at h ⊢
      exact ih n h
    · match n with
      | 0 =>
        rw [show revealNthHidden (i :: rest) 0 = i.reveal :: rest from by
          simp [revealNthHidden, hrev]]
        simp [List.filter_cons, hrev, Influence.reveal]
      | Nat.succ m =>
        rw [show revealNthHidden (i :: rest) (Nat.succ m) = i :: revealNthHidden rest m from by
          simp [revealNthHidden, hrev]]
        simp only [List.filter_cons, hrev, Bool.not_false, if_true] at h ⊢
        simp only [List.length_cons] at h ⊢
        have := ih m (by omega)
        omega

theorem lose_influence_hidden_count (p : Player) (pick : Nat)
    (h : 0 < p.get_hidden_cards.length) :
    (p.lose_influence pick).get_hidden_cards.length + 1 = p.get_hidden_cards.length := by
  have h0 : ¬(p.get_hidden_cards.length = 0) := by omega
  by_cases h1 : p.get_hidden_cards.length = 1
  · have : p.lose_influence pick = { p with influence := revealNthHidden p.influence 0 } := by
      simp [Player.lose_influence, h0, h1]
    rw [this]
    unfold Player.get_hidden_cards at *
    simpa using revealNthHidden_count p.influence 0 (by omega)
  · have : p.lose_influence pick
        = { p with influence := revealNthHidden p.influence (pick % p.get_hidden_cards.length) } := by
      simp [Player.lose_influence, h0, h1]
    rw [this]
    unfold Player.get_hidden_cards at *
    simpa using revealNthHidden_count p.influence _ (Nat.mod_lt _ (by omega))

/-- A player with no claim to the role still has a hidden card when the
hidden-role check succeeds. -/
theorem has_hidden_role_hidden_pos (p : Player) (r : Role)
    (h : p.has_hidden_role r = true) : 0 < p.get_hidden_cards.length := by
  unfold Player.has_hidden_role at h
  rw [List.any_eq_true] at h
  obtain ⟨i, hmem, hi⟩ := h
  rw [Bool.and_eq_true] at hi
  have hin : i ∈ p.get_hidden_cards := by
    unfold Player.get_hidden_cards
    rw [List.mem_filter]
    exact ⟨hmem, by simpa using hi.2⟩
  exact List.length_pos.mpr (List.ne_nil_of_mem hin)

/-- Polling helper: a poll whose predicate is everywhere false finds nobody. -/
theorem find?_false {α : Type} (l : List α) (f : α → Bool) (h : ∀ i, f i = false) :
    l.find? f = none :=
  List.find?_eq_none.mpr (fun x _ => by simp [h])

/-- `findPlayerIdx` on a suffix whose ids are the positions shifted by `k`. -/
theorem findPlayerIdx_shift (l : List Player) (k t : Nat)
    (hinv : ∀ i, i < l.length → (l.getD i dummyPlayer).player_id = i + k)
    (ht : t < l.length) : findPlayerIdx l (t + k) = some t := by
  induction l generalizing k t with
  | nil => simp at ht
  | cons p rest ih =>
    have hp : p.player_id = k := by simpa using hinv 0 (by simp)
    match t with
    | 0 => simp [findPlayerIdx, hp]
    | Nat.succ m =>
      have hne : p.player_id ≠ Nat.succ m + k := by omega
      simp only [findPlayerIdx, if_neg hne]
      have hrec : findPlayerIdx rest (m + (k + 1)) = some m := by
        refine ih (k + 1) m (fun i hi => ?_) (by simpa using ht)
        have := hinv (i + 1) (by simpa using hi)
        simpa [List.getD, Nat.add_assoc, Nat.add_comm 1 k] using this
      have : Nat.succ m + k = m + (k + 1) := by omega
      rw [this, hrec]
      rfl

/-- `findPlayerIdx` under the engine invariant that each player's id
equals its seat index (established by `initialize_players`). -/
theorem findPlayerIdx_id (l : List Player) (t : Nat)
    (hinv : ∀ i, i < l.length → (l.getD i dummyPlayer).player_id = i)
    (ht : t < l.length) : findPlayerIdx l t = some t := by
  have := findPlayerIdx_shift l 0 t (by simpa using hinv) ht
  simpa using this

/-- Functional behaviour of `exchange_single_card` on the proven-claim
path: when the player really holds an unrevealed card of the role and the
shuffle is a permutation, the swap succeeds and preserves the hand size,
the hidden-card count, the coins and the deck size. -/
theorem exchange_single_card_spec (deck : List Role) (p : Player) (r : Role)
    (sh : List Role → List Role)
    (hrole : p.has_hidden_role r = true)
    (hsh : ∀ l, (sh l).Perm l) :
    ∃ deck2 p2, exchange_single_card deck p r sh = Except.ok (deck2, p2, true) ∧
      p2.coins = p.coins ∧ p2.player_id = p.player_id ∧
      p2.influence.length = p.influence.length ∧
      p2.get_hidden_cards.length = p.get_hidden_cards.length ∧
      deck2.length = deck.length := by
  have hex : ∃ i ∈ p.influence, (i.role == r && !i.is_revealed) = true := by
    rw [← List.any_eq_true]
    exact hrole
  obtain ⟨w, hwmem, hw⟩ := hex
  rw [Bool.and_eq_true] at hw
  have hwhid : w ∈ p.get_hidden_cards := by
    rw [Player.get_hidden_cards, List.mem_filter]
    exact ⟨hwmem, hw.2⟩
  have hne : p.get_hidden_cards.isEmpty = false := by
    rcases hcase : p.get_hidden_cards with _ | ⟨a, l⟩
    · rw [hcase] at hwhid; simp at hwhid
    · rfl
  have hfindSome : (p.get_hidden_cards.find? (fun card => card.role == r)).isSome := by
    rw [List.find?_isSome]
    exact ⟨w, hwhid, hw.1⟩
  obtain ⟨tc, htc⟩ := Option.isSome_iff_exists.mp hfindSome
  have htcmem : tc ∈ p.get_hidden_cards := List.mem_of_find?_eq_some htc
  have htcinf : tc ∈ p.influence := (List.mem_filter.mp htcmem).1
  have htchid : (!tc.is_revealed) = true := (List.mem_filter.mp htcmem).2
  have hlen1 : (sh (deck ++ [r])).length = deck.length + 1 := by
    rw [(hsh (deck ++ [r])).length_eq]
    simp
  have hdraw : Deck.draw 1 (sh (deck ++ [r]))
      = some ((sh (deck ++ [r])).reverse.take 1,
              ((sh (deck ++ [r])).reverse.drop 1).reverse) := by
    rw [Deck.draw, if_neg (by omega)]
  obtain ⟨s, t, hns, hl, herase⟩ := List.exists_erase_eq htcinf
  refine ⟨((sh (deck ++ [r])).reverse.drop 1).reverse,
    { p with influence := p.influence.erase tc
        ++ [⟨((sh (deck ++ [r])).reverse.take 1).headD Role.duke, false⟩] },
    ?_, ?_, ?_, ?_, ?_, ?_⟩
  · simp only [exchange_single_card, hne, Bool.false_eq_true, if_false, htc,
      Deck.return_cards, hdraw]
  · rfl
  · rfl
  · rw [List.length_append, herase, hl]
    simp only [List.length_append, List.length_cons, List.length_nil]
    omega
  · show ((p.influence.erase tc ++ _).filter (fun i => !i.is_revealed)).length
        = (p.influence.filter (fun i => !i.is_revealed)).length
    rw [herase, hl]
    simp only [List.filter_append, List.filter_cons]
    simp only [htchid, if_true]
    simp only [Bool.not_false, if_true, List.filter_nil, List.length_append,
      List.length_cons, List.length_nil]
    omega
  · rw [List.length_reverse, List.length_drop, List.length_reverse, hlen1]
    omega

/-- A player whose aliveness is false has no hidden cards. -/
theorem dead_hidden_nil (p : Player) (h : p.is_alive = false) :
    p.get_hidden_cards = [] := by
  unfold Player.is_alive at h
  rw [Bool.not_eq_false'] at h
  unfold Player.get_hidden_cards
  rw [List.filter_eq_nil_iff]
  intro a ha
  have := List.all_eq_true.mp h a ha
  simp [this]

/-! ### The claims -/

/-- C4: the legal-action menu always offers INCOME, FOREIGN_AID, TAX,
EXCHANGE and STEAL below 10 coins; ASSASSINATE is offered iff the player
has at least 3 coins (below the forced-coup threshold); COUP is offered
iff the player has at least 7 coins; and at 10 or more coins the menu is
exactly the singleton COUP. -/
theorem C4_forced_coup_availability (p : Player) :
    (p.coins < 10 →
      (ActionType.income ∈ p.get_available_actions ∧
       ActionType.foreign_aid ∈ p.get_available_actions ∧
       ActionType.tax ∈ p.get_available_actions ∧
       ActionType.exchange ∈ p.get_available_actions ∧
       ActionType.steal ∈ p.get_available_actions ∧
       (ActionType.assassinate ∈ p.get_available_actions ↔ 3 ≤ p.coins))) ∧
    (ActionType.coup ∈ p.get_available_actions ↔ 7 ≤ p.coins) ∧
    (10 ≤ p.coins → p.get_available_actions = [ActionType.coup]) := by
  by_cases h3 : (3:Int) ≤ p.coins <;> by_cases h7 : (7:Int) ≤ p.coins <;>
    by_cases h10 : (10:Int) ≤ p.coins <;>
    simp [Player.get_available_actions, h3, h7, h10, ge_iff_le] <;> omega

/-- Witness for C4 at a concrete player with 5 coins. -/
theorem C4_forced_coup_availability_witness :
    (ActionType.assassinate ∈ (Player.mk 0 "" 5 []).get_available_actions) ∧
    ¬(ActionType.coup ∈ (Player.mk 0 "" 5 []).get_available_actions) := by
  have h := C4_forced_coup_availability (Player.mk 0 "" 5 [])
  refine ⟨(h.1 (by decide)).2.2.2.2.2.mpr (by decide), fun hc => ?_⟩
  exact absurd (h.2.1.mp hc) (by decide)

/-- C9: aliveness is derived — a player is alive exactly when some
influence is unrevealed — and once false it stays false under every
engine operation on the player (influence loss, coin changes, both
exchange protocols, which all leave a dead player untouched). -/
theorem C9_derived_aliveness (p : Player) :
    (p.is_alive = true ↔ ∃ inf ∈ p.influence, inf.is_revealed = false) ∧
    (p.is_alive = false →
      (∀ pick, (p.lose_influence pick).is_alive = false) ∧
      (∀ n, (p.get_coin n).is_alive = false) ∧
      (∀ n, (p.lose_coin n).is_alive = false) ∧
      (∀ deck r sh, exchange_single_card deck p r sh = Except.ok (deck, p, false)) ∧
      (∀ deck sel sh, exchange_two_cards deck p sel sh = (deck, p, ExResult.errNoHidden))) := by
  constructor
  · unfold Player.is_alive
    rw [Bool.not_eq_true', List.all_eq_false]
    constructor
    · rintro ⟨x, hx, hxr⟩
      exact ⟨x, hx, by simpa using hxr⟩
    · rintro ⟨x, hx, hxr⟩
      exact ⟨x, hx, by simp [hxr]⟩
  · intro h
    have hnil : p.get_hidden_cards = [] := dead_hidden_nil p h
    refine ⟨?_, ?_, ?_, ?_, ?_⟩
    · intro pick
      have : p.lose_influence pick = p := by
        simp [Player.lose_influence, hnil]
      rw [this]; exact h
    · intro n; exact h
    · intro n; exact h
    · intro deck r sh
      simp [exchange_single_card, hnil]
    · intro deck sel sh
      simp [exchange_two_cards, hnil]

/-- Witness for C9 at a concrete dead player. -/
theorem C9_derived_aliveness_witness :
    ((Player.mk 0 "" 2 [⟨Role.duke, true⟩, ⟨Role.contessa, true⟩]).lose_influence 0).is_alive
        = false ∧
    exchange_two_cards [Role.duke] (Player.mk 0 "" 2 [⟨Role.duke, true⟩, ⟨Role.contessa, true⟩])
        (fun _ _ _ => []) id
      = ([Role.duke], Player.mk 0 "" 2 [⟨Role.duke, true⟩, ⟨Role.contessa, true⟩],
         ExResult.errNoHidden) := by
  have h := C9_derived_aliveness (Player.mk 0 "" 2 [⟨Role.duke, true⟩, ⟨Role.contessa, true⟩])
  have hd := h.2 (by decide)
  exact ⟨hd.1 0, hd.2.2.2.2 [Role.duke] (fun _ _ _ => []) id⟩

/-- Concrete input exhibiting the leftover-computation bug of
`exchange_two_cards`: one hidden DUKE, the deck provides DUKE and
CONTESSA, the player keeps one DUKE. -/
def C1player : Player := ⟨0, "", 2, [⟨Role.duke, false⟩]⟩

/-- C1: card conservation fails.  With a hidden DUKE and a drawn DUKE the
list comprehension `[c for c in all_cards if c not in selected]` drops
every copy of the selected role, so only CONTESSA is returned to the deck:
the deck plus the hand hold 2 cards after the exchange where they held 3
before, even though the exchange reports success.  This contradicts the
source's own comment that the returned leftover is always exactly 2
cards. -/
theorem C1_exchange_two_cards_drops_card :
    exchange_two_cards [Role.contessa, Role.duke] C1player
        (fun _ _ _ => [Role.duke]) id
      = ([Role.contessa], C1player, ExResult.ok) ∧
    ([Role.contessa] : List Role).length + C1player.influence.length = 2 ∧
    ([Role.contessa, Role.duke] : List Role).length + C1player.influence.length = 3 := by
  decide

/-- Initial state for the C2 trace: actor seat 0 (ASSASSIN, CAPTAIN, 3
coins), target seat 1 (CONTESSA, DUKE), bystander seat 2. -/
def C2state : GameState :=
  ⟨[⟨0, "A", 3, [⟨Role.assassin, false⟩, ⟨Role.captain, false⟩]⟩,
    ⟨1, "B", 2, [⟨Role.contessa, false⟩, ⟨Role.duke, false⟩]⟩,
    ⟨2, "C", 2, [⟨Role.duke, false⟩, ⟨Role.duke, false⟩]⟩],
   [Role.duke, Role.captain, Role.ambassador], 0, 1, 3⟩

/-- Decisions for the C2 trace: ASSASSINATE on player 1; nobody
challenges the ASSASSIN claim; the target declares CONTESSA; bystander 2
challenges that counter. -/
def C2oracle : Oracles :=
  { act := ActionType.assassinate
    tgt := some 1
    chal := fun i cl _r => i == 2 && cl == 1
    willReveal := fun _ => false
    pick := fun _ => 0
    tAnswer := fun i _a => if i == 1 then some Role.contessa else none
    select := fun _ _ _ => []
    sh := id }

/-- C2: when a targeted counter is challenged, the source resolves the
challenge against the actor, not the counter-declarer.  Here the target
truthfully holds a hidden CONTESSA and the actor does not; yet after the
challenge the actor has revealed a card (hidden count 2 drops to 1) and
the assassination still executes against the target (hidden count 2 drops
to 1), where resolving against the declarer would have tested the
target's CONTESSA. -/
theorem C2_targeted_counter_challenge_accuses_actor :
    (C2state.players.getD 1 dummyPlayer).has_hidden_role Role.contessa = true ∧
    (C2state.players.getD 0 dummyPlayer).has_hidden_role Role.contessa = false ∧
    (runTurn C2state C2oracle).toOption.map (fun x =>
        (x.2,
         (x.1.players.getD 0 dummyPlayer).get_hidden_cards.length,
         (x.1.players.getD 1 dummyPlayer).get_hidden_cards.length))
      = some (TurnOutcome.executed, 1, 1) := by
  decide

/-- Accused player for the C5 counterexample: both influences already
revealed (dead). -/
def C5state : GameState :=
  ⟨[⟨0, "A", 2, [⟨Role.duke, true⟩, ⟨Role.contessa, true⟩]⟩,
    ⟨1, "B", 2, [⟨Role.assassin, false⟩]⟩],
   [], 0, 1, 2⟩

/-- Oracle for the C5 counterexample (none of its answers is reached). -/
def C5oracle : Oracles :=
  { act := ActionType.tax
    tgt := none
    chal := fun _ _ _ => false
    willReveal := fun _ => false
    pick := fun _ => 0
    tAnswer := fun _ _ => none
    select := fun _ _ _ => []
    sh := id }

/-- C5 counterexample: for an accused with zero unrevealed influences —
no hidden card of any role, so `hasHiddenRole` is false — `deal_challenge`
still returns disproven = true, but the accused's hidden count stays 0
instead of decreasing by exactly 1 (`lose_influence` silently does
nothing), refuting the claim's universal quantification over accused
players. -/
theorem C5_counterexample_dead_accused :
    (C5state.players.getD 0 dummyPlayer).has_hidden_role Role.captain = false ∧
    (GameManager.deal_challenge C5state 0 1 Role.captain C5oracle).toOption.map (fun x =>
        (x.2, (x.1.players.getD 0 dummyPlayer).get_hidden_cards.length))
      = some (true, 0) ∧
    (C5state.players.getD 0 dummyPlayer).get_hidden_cards.length = 0 ∧
    ¬(0 + 1 = (C5state.players.getD 0 dummyPlayer).get_hidden_cards.length) := by
  decide

/-- `deal_challenge`, bluff branch: the accused lacks the hidden role. -/
theorem deal_challenge_bluff (gs : GameState) (i1 i2 : Nat) (role : Role) (O : Oracles)
    (hrole : (gs.players.getD i1 dummyPlayer).has_hidden_role role = false) :
    GameManager.deal_challenge gs i1 i2 role O
      = Except.ok (gs.updP i1 (fun p => p.lose_influence (O.pick i1)), true) := by
  simp only [GameManager.deal_challenge]
  rw [hrole]
  simp

/-- `deal_challenge`, decline branch: the accused holds the role but
refuses to reveal proof. -/
theorem deal_challenge_decline (gs : GameState) (i1 i2 : Nat) (role : Role) (O : Oracles)
    (hrole : (gs.players.getD i1 dummyPlayer).has_hidden_role role = true)
    (hwr : O.willReveal i1 = false) :
    GameManager.deal_challenge gs i1 i2 role O
      = Except.ok (gs.updP i1 (fun p => p.lose_influence (O.pick i1)), true) := by
  simp only [GameManager.deal_challenge]
  rw [hrole, hwr]
  simp

/-- `deal_challenge`, reveal branch: the accused holds the role and
reveals; the proving card is swapped and the challenger loses an
influence. -/
theorem deal_challenge_reveal (gs : GameState) (i1 i2 : Nat) (role : Role) (O : Oracles)
    (deck1 : List Role) (pl1x : Player) (b : Bool)
    (hrole : (gs.players.getD i1 dummyPlayer).has_hidden_role role = true)
    (hwr : O.willReveal i1 = true)
    (hex : exchange_single_card gs.deck (gs.players.getD i1 dummyPlayer) role O.sh
      = Except.ok (deck1, pl1x, b)) :
    GameManager.deal_challenge gs i1 i2 role O
      = Except.ok ((({ gs with deck := deck1, players := gs.players.set i1 pl1x })
          : GameState).updP i2 (fun p => p.lose_influence (O.pick i2)), false) := by
  simp only [GameManager.deal_challenge]
  rw [hrole, hwr, hex]
  simp

/-- C5 (amended): for an accused holding at least one unrevealed
influence, a challenge of a role the accused does not hold hidden returns
disproven = true and lowers the accused's hidden count by exactly 1; and
an accused who does hold the role hidden but declines to reveal proof
gets the identical outcome. -/
theorem C5_amended_challenge_adjudication (gs : GameState) (i1 i2 : Nat) (role : Role)
    (O : Oracles) (h1 : i1 < gs.players.length) :
    (((gs.players.getD i1 dummyPlayer).has_hidden_role role = false ∧
      0 < (gs.players.getD i1 dummyPlayer).get_hidden_cards.length) →
      ∃ gsx, GameManager.deal_challenge gs i1 i2 role O = Except.ok (gsx, true) ∧
        (gsx.players.getD i1 dummyPlayer).get_hidden_cards.length + 1
          = (gs.players.getD i1 dummyPlayer).get_hidden_cards.length) ∧
    (((gs.players.getD i1 dummyPlayer).has_hidden_role role = true ∧
      O.willReveal i1 = false) →
      ∃ gsx, GameManager.deal_challenge gs i1 i2 role O = Except.ok (gsx, true) ∧
        (gsx.players.getD i1 dummyPlayer).get_hidden_cards.length + 1
          = (gs.players.getD i1 dummyPlayer).get_hidden_cards.length) := by
  constructor
  · rintro ⟨hrole, hpos⟩
    refine ⟨gs.updP i1 (fun p => p.lose_influence (O.pick i1)), ?_, ?_⟩
    · exact deal_challenge_bluff gs i1 i2 role O hrole
    · rw [getD_updP_self _ _ _ h1]
      exact lose_influence_hidden_count _ _ hpos
  · rintro ⟨hrole, hwr⟩
    have hpos := has_hidden_role_hidden_pos _ _ hrole
    refine ⟨gs.updP i1 (fun p => p.lose_influence (O.pick i1)), ?_, ?_⟩
    · exact deal_challenge_decline gs i1 i2 role O hrole hwr
    · rw [getD_updP_self _ _ _ h1]
      exact lose_influence_hidden_count _ _ hpos

/-- Witness for the amended C5 at a concrete two-player state. -/
theorem C5_amended_witness :
    ∃ gsx, GameManager.deal_challenge
        ⟨[⟨0, "A", 2, [⟨Role.duke, false⟩, ⟨Role.contessa, false⟩]⟩,
          ⟨1, "B", 2, [⟨Role.assassin, false⟩]⟩], [], 0, 1, 2⟩ 0 1 Role.captain C5oracle
      = Except.ok (gsx, true) ∧
      (gsx.players.getD 0 dummyPlayer).get_hidden_cards.length + 1
        = ((⟨[⟨0, "A", 2, [⟨Role.duke, false⟩, ⟨Role.contessa, false⟩]⟩,
             ⟨1, "B", 2, [⟨Role.assassin, false⟩]⟩], [], 0, 1, 2⟩ : GameState).players.getD 0
             dummyPlayer).get_hidden_cards.length := by
  exact (C5_amended_challenge_adjudication
    ⟨[⟨0, "A", 2, [⟨Role.duke, false⟩, ⟨Role.contessa, false⟩]⟩,
      ⟨1, "B", 2, [⟨Role.assassin, false⟩]⟩], [], 0, 1, 2⟩ 0 1 Role.captain C5oracle
    (by decide)).1 ⟨by decide, by decide⟩

/-- C7: the proven-claim swap is a frame-preserving single-card exchange:
it succeeds, leaves the accused's hand size, hidden count and coins
unchanged, and leaves the deck size unchanged (one card returned, one
drawn). -/
theorem C7_proven_claim_swap (deck : List Role) (p : Player) (r : Role)
    (sh : List Role → List Role)
    (hrole : p.has_hidden_role r = true)
    (hsh : ∀ l, (sh l).Perm l) :
    ∃ deck2 p2, exchange_single_card deck p r sh = Except.ok (deck2, p2, true) ∧
      p2.influence.length = p.influence.length ∧
      deck2.length = deck.length ∧
      p2.coins = p.coins ∧
      p2.get_hidden_cards.length = p.get_hidden_cards.length := by
  obtain ⟨d2, p2, heq, hc, hid2, hlen, hhid, hdeck⟩ :=
    exchange_single_card_spec deck p r sh hrole hsh
  exact ⟨d2, p2, heq, hlen, hdeck, hc, hhid⟩

/-- Witness player for C7. -/
def C7player : Player := ⟨0, "", 2, [⟨Role.contessa, false⟩]⟩

/-- Witness for C7 at a concrete player and one-card deck. -/
theorem C7_proven_claim_swap_witness :
    C7player.has_hidden_role Role.contessa = true ∧
    ∃ deck2 p2, exchange_single_card [Role.duke] C7player Role.contessa id
        = Except.ok (deck2, p2, true) ∧
      p2.influence.length = C7player.influence.length ∧
      deck2.length = 1 ∧
      p2.coins = C7player.coins ∧
      p2.get_hidden_cards.length = C7player.get_hidden_cards.length := by
  refine ⟨by decide, ?_⟩
  have h := C7_proven_claim_swap [Role.duke] C7player Role.contessa id (by decide)
    (fun l => List.Perm.refl l)
  simpa using h

/-- C10: the two-card exchange is not atomic with respect to the deck:
when the selection count is wrong, the raise happens after the 2-card
draw, so the returned state has the player's influence list untouched and
the deck short exactly the 2 drawn cards, which are never returned. -/
theorem C10_exchange_error_not_atomic (deck : List Role) (p : Player)
    (select : List Role → List Role → Nat → List Role)
    (sh : List Role → List Role)
    (hhid : p.get_hidden_cards.length ≠ 0)
    (hdeck : 2 ≤ deck.length)
    (hsel : (select (deck.reverse.take 2) (p.get_hidden_cards.map (fun i => i.role))
        p.get_hidden_cards.length).length ≠ p.get_hidden_cards.length) :
    exchange_two_cards deck p select sh
      = ((deck.reverse.drop 2).reverse, p, ExResult.errSelection) ∧
    (deck.reverse.drop 2).reverse.length + 2 = deck.length := by
  have hdraw : Deck.draw 2 deck
      = some (deck.reverse.take 2, (deck.reverse.drop 2).reverse) := by
    rw [Deck.draw, if_neg (by omega)]
  constructor
  · simp only [exchange_two_cards, if_neg hhid, hdraw, if_pos hsel]
  · rw [List.length_reverse, List.length_drop, List.length_reverse]
    omega

/-- Witness player for C10. -/
def C10player : Player := ⟨0, "", 2, [⟨Role.duke, false⟩]⟩

/-- Witness for C10 at a concrete player and deck. -/
theorem C10_exchange_error_not_atomic_witness :
    exchange_two_cards [Role.contessa, Role.duke] C10player (fun _ _ _ => []) id
      = ([], C10player, ExResult.errSelection) ∧
    (0 + 2 = 2) := by
  have h := C10_exchange_error_not_atomic [Role.contessa, Role.duke] C10player
    (fun _ _ _ => []) id (by decide) (by decide) (by decide)
  exact ⟨by simpa using h.1, by decide⟩

/-- Claim-challenge phase when the claimed role draws no challenge from
any polled player: the turn continues with the state untouched. -/
theorem claimChallengePhase_silent (gs : GameState) (O : Oracles) (role : Role)
    (hrr : (ACTION_CONFIG O.act).required_role = some role)
    (hch : ∀ i, O.chal i (gs.players.getD gs.current_player_index dummyPlayer).player_id role
        = false) :
    claimChallengePhase gs O = Except.ok (gs, true) := by
  have hnone : (pollIdxs gs.total_player_num gs.current_player_index).find?
      (challengePred gs gs.current_player_index
        (gs.players.getD gs.current_player_index dummyPlayer).player_id role O) = none :=
    find?_false _ _ (fun i => by unfold challengePred; rw [hch i]; simp)
  simp only [claimChallengePhase, hrr, hnone]

/-- Cost phase when the cost is nonzero and affordable. -/
theorem process_action_cost_pays (gs : GameState) (i : Nat) (act : ActionType)
    (cost : Int) (hcost : (ACTION_CONFIG act).coins_cost = cost) (hc0 : ¬(cost = 0))
    (hcoins : ¬((gs.players.getD i dummyPlayer).coins < cost)) :
    GameManager.process_action_cost gs i act
      = Except.ok (gs.updP i (fun q => q.lose_coin cost)) := by
  simp only [GameManager.process_action_cost, hcost, if_neg hc0, if_neg hcoins]

/-- Targeted counter phase when the target declines to counter: the
source's `elif` fall-through polls the bystanders. -/
theorem targetedCounterPhase_decline (gs : GameState) (pid : Nat) (O : Oracles)
    (hrange : pid < gs.total_player_num)
    (hfind : findPlayerIdx gs.players pid = some pid)
    (hpid : (gs.players.getD pid dummyPlayer).player_id = pid)
    (hta : O.tAnswer pid O.act = none)
    (hne : (ACTION_CONFIG O.act).counterable_by.isEmpty = false) :
    targetedCounterPhase gs pid O = undirectedCounterPhase gs O := by
  simp only [targetedCounterPhase, GameManager.get_player_by_id, if_pos hrange, hfind,
    hpid, hta, hne, Bool.false_eq_true, if_false]

/-- The bystander counter-declaration loop when every decision-maker
declines to counter: the action proceeds. -/
theorem undirectedCounterPhase_silent (gs : GameState) (O : Oracles)
    (hta : ∀ j, O.tAnswer j O.act = none) :
    undirectedCounterPhase gs O = Except.ok (gs, true) := by
  have hnone : (pollIdxs gs.total_player_num gs.current_player_index).find?
      (counterPred gs gs.current_player_index O) = none :=
    find?_false _ _ (fun i => by unfold counterPred; rw [hta]; simp)
  simp only [undirectedCounterPhase, hnone]

/-- Targeted counter phase when the target declares a counter and nobody
challenges it: the counter stands and the turn ends. -/
theorem targetedCounterPhase_silentCounter (gs : GameState) (pid : Nat) (O : Oracles)
    (cr : Role)
    (hrange : pid < gs.total_player_num)
    (hfind : findPlayerIdx gs.players pid = some pid)
    (hpid : (gs.players.getD pid dummyPlayer).player_id = pid)
    (hta : O.tAnswer pid O.act = some cr)
    (hnone : (pollIdxs gs.total_player_num pid).find? (challengePred gs pid pid cr O)
        = none) :
    targetedCounterPhase gs pid O = Except.ok (gs.advance, false) := by
  simp only [targetedCounterPhase, GameManager.get_player_by_id, if_pos hrange, hfind,
    hpid, hta, hnone]

/-- Targeted counter phase when the declared counter is challenged: the
phase's result is determined by `deal_challenge`, whose accused is the
actor (`self.current_player`), as in the source. -/
theorem targetedCounterPhase_challenged (gs : GameState) (pid : Nat) (O : Oracles)
    (cr : Role) (q : Nat) (gs1 : GameState) (result : Bool)
    (hrange : pid < gs.total_player_num)
    (hfind : findPlayerIdx gs.players pid = some pid)
    (hpid : (gs.players.getD pid dummyPlayer).player_id = pid)
    (hta : O.tAnswer pid O.act = some cr)
    (hfq : (pollIdxs gs.total_player_num pid).find? (challengePred gs pid pid cr O)
        = some q)
    (hdc : GameManager.deal_challenge gs gs.current_player_index q cr O
        = Except.ok (gs1, result)) :
    targetedCounterPhase gs pid O
      = if !result then Except.ok (gs1.advance, false) else Except.ok (gs1, true) := by
  simp only [targetedCounterPhase, GameManager.get_player_by_id, if_pos hrange, hfind,
    hpid, hta, hfq, hdc]

/-- Elements produced by the polling index list are valid seat indices. -/
theorem pollIdxs_lt (n b q : Nat) (hq : q ∈ pollIdxs n b) (hn : 0 < n) : q < n := by
  unfold pollIdxs at hq
  rw [List.mem_map] at hq
  obtain ⟨k, _, hk⟩ := hq
  rw [← hk]
  exact Nat.mod_lt _ hn

/-- Assembly of one ASSASSINATE turn that ends in the targeted counter
phase: with a truthy target id, a quiet claim phase and a paid cost, the
turn's outcome is the counter phase's cancellation. -/
theorem runTurn_targeted_cancelled (gs gs2 X : GameState) (O : Oracles) (t : Nat)
    (hact : O.act = ActionType.assassinate)
    (htgt : O.tgt = some t) (ht0 : t ≠ 0)
    (h1 : claimChallengePhase gs O = Except.ok (gs, true))
    (h2 : GameManager.process_action_cost gs gs.current_player_index O.act
      = Except.ok gs2)
    (h3 : targetedCounterPhase gs2 t O = Except.ok (X, false)) :
    runTurn gs O = Except.ok (X, TurnOutcome.cancelled) := by
  have htd : decide (t ≠ 0) = true := decide_eq_true ht0
  rw [hact] at h2
  simp only [runTurn, h1, h2, htgt, htd, hact, ACTION_CONFIG, List.isEmpty_cons,
    Bool.not_false, Bool.and_true, Bool.true_and, if_true, Option.getD_some, h3]

/-- Assembly of one ASSASSINATE turn that survives the targeted counter
phase and executes. -/
theorem runTurn_targeted_executed (gs gs2 gs3 : GameState) (O : Oracles) (t : Nat)
    (b : Bool)
    (hact : O.act = ActionType.assassinate)
    (htgt : O.tgt = some t) (ht0 : t ≠ 0)
    (h1 : claimChallengePhase gs O = Except.ok (gs, true))
    (h2 : GameManager.process_action_cost gs gs.current_player_index O.act
      = Except.ok gs2)
    (h3 : targetedCounterPhase gs2 t O = Except.ok (gs2, true))
    (h4 : GameManager.execute_action gs2 O = Except.ok (gs3, b)) :
    runTurn gs O = Except.ok (gs3.advance, TurnOutcome.executed) := by
  have htd : decide (t ≠ 0) = true := decide_eq_true ht0
  rw [hact] at h2
  simp only [runTurn, h1, h2, htgt, htd, hact, ACTION_CONFIG, List.isEmpty_cons,
    Bool.not_false, Bool.and_true, Bool.true_and, if_true, Option.getD_some, h3, h4]

/-- The ASSASSINATE executor: look the target up by id and force an
influence loss. -/
theorem execute_action_assassinate (gs : GameState) (O : Oracles) (t : Nat)
    (hact : O.act = ActionType.assassinate) (htgt : O.tgt = some t)
    (hrange : t < gs.total_player_num)
    (hfind : findPlayerIdx gs.players t = some t) :
    GameManager.execute_action gs O
      = Except.ok (gs.updP t (fun p => p.lose_influence (O.pick t)), true) := by
  simp only [GameManager.execute_action, hact, htgt, GameManager.get_player_by_id,
    if_pos hrange, hfind]

/-- C6: an ASSASSINATE's 3-coin cost is deducted after the claim
challenge and before counter declaration, and is never refunded: when the
target's CONTESSA counter ends the turn — unchallenged, or challenged
with the resulting `deal_challenge` (whose accused, per the source, is
the actor) proving CONTESSA — the turn is cancelled, the actor's coins
are exactly 3 below their pre-cost value, and the target's influence
list is untouched. -/
theorem C6_assassinate_cost_not_refunded (gs : GameState) (O : Oracles) (t : Nat)
    (htot : gs.total_player_num = gs.players.length)
    (hc : gs.current_player_index < gs.players.length)
    (hid : ∀ i, i < gs.players.length → (gs.players.getD i dummyPlayer).player_id = i)
    (hact : O.act = ActionType.assassinate)
    (htgt : O.tgt = some t)
    (ht0 : t ≠ 0)
    (htn : t < gs.players.length)
    (htc : t ≠ gs.current_player_index)
    (hcoins : 3 ≤ (gs.players.getD gs.current_player_index dummyPlayer).coins)
    (hch1 : ∀ i, O.chal i (gs.players.getD gs.current_player_index dummyPlayer).player_id
        Role.assassin = false)
    (hta : O.tAnswer t ActionType.assassinate = some Role.contessa)
    (hcc : (∀ i, O.chal i t Role.contessa = false) ∨
      ((gs.players.getD gs.current_player_index dummyPlayer).has_hidden_role Role.contessa
          = true ∧ O.willReveal gs.current_player_index = true ∧
        ∀ l, (O.sh l).Perm l)) :
    ∃ gsx, runTurn gs O = Except.ok (gsx, TurnOutcome.cancelled) ∧
      (gsx.players.getD gs.current_player_index dummyPlayer).coins
        = (gs.players.getD gs.current_player_index dummyPlayer).coins - 3 ∧
      (gsx.players.getD t dummyPlayer).influence
        = (gs.players.getD t dummyPlayer).influence := by
  have h1 : claimChallengePhase gs O = Except.ok (gs, true) :=
    claimChallengePhase_silent gs O Role.assassin (by rw [hact]; rfl) hch1
  have h2 : GameManager.process_action_cost gs gs.current_player_index O.act
      = Except.ok (gs.updP gs.current_player_index (fun q => q.lose_coin 3)) := by
    rw [hact]
    exact process_action_cost_pays gs gs.current_player_index ActionType.assassinate 3 rfl
      (by norm_num) (by omega)
  set gs2 := gs.updP gs.current_player_index (fun q => q.lose_coin 3) with hgs2
  have hg2len : gs2.players.length = gs.players.length := by rw [hgs2]; exact updP_length gs _ _
  have hg2tot : gs2.total_player_num = gs.total_player_num := by rw [hgs2]; rfl
  have hg2cpi : gs2.current_player_index = gs.current_player_index := by rw [hgs2]; rfl
  have hg2id : ∀ i, i < gs2.players.length → (gs2.players.getD i dummyPlayer).player_id = i := by
    intro i hi
    rw [hg2len] at hi
    by_cases he : i = gs.current_player_index
    · subst he
      rw [hgs2, getD_updP_self gs _ _ hc, lose_coin_id]
      exact hid _ hi
    · rw [hgs2, getD_updP_ne gs _ i _ he]
      exact hid i hi
  have hg2t : gs2.players.getD t dummyPlayer = gs.players.getD t dummyPlayer := by
    rw [hgs2]; exact getD_updP_ne gs _ t _ htc
  have hg2c : gs2.players.getD gs.current_player_index dummyPlayer
      = (gs.players.getD gs.current_player_index dummyPlayer).lose_coin 3 := by
    rw [hgs2]; exact getD_updP_self gs _ _ hc
  have htn2 : t < gs2.players.length := by rw [hg2len]; exact htn
  have hrange : t < gs2.total_player_num := by rw [hg2tot, htot]; exact htn
  have hfind : findPlayerIdx gs2.players t = some t := findPlayerIdx_id _ t hg2id htn2
  have hpid : (gs2.players.getD t dummyPlayer).player_id = t := hg2id t htn2
  have hta2 : O.tAnswer t O.act = some Role.contessa := by rw [hact]; exact hta
  rcases hcc with hccL | ⟨hhid, hwr, hsh⟩
  · have hnone : (pollIdxs gs2.total_player_num t).find?
        (challengePred gs2 t t Role.contessa O) = none :=
      find?_false _ _ (fun i => by unfold challengePred; rw [hccL i]; simp)
    have h3 : targetedCounterPhase gs2 t O = Except.ok (gs2.advance, false) :=
      targetedCounterPhase_silentCounter gs2 t O Role.contessa hrange hfind hpid hta2 hnone
    refine ⟨gs2.advance, runTurn_targeted_cancelled gs gs2 _ O t hact htgt ht0 h1 h2 h3,
      ?_, ?_⟩
    · rw [advance_players, hg2c, lose_coin_coins]
    · rw [advance_players, hg2t]
  · cases hfq : (pollIdxs gs2.total_player_num t).find?
        (challengePred gs2 t t Role.contessa O) with
    | none =>
      have h3 : targetedCounterPhase gs2 t O = Except.ok (gs2.advance, false) :=
        targetedCounterPhase_silentCounter gs2 t O Role.contessa hrange hfind hpid hta2 hfq
      refine ⟨gs2.advance, runTurn_targeted_cancelled gs gs2 _ O t hact htgt ht0 h1 h2 h3,
        ?_, ?_⟩
      · rw [advance_players, hg2c, lose_coin_coins]
      · rw [advance_players, hg2t]
    | some q =>
      have hq := List.find?_some hfq
      have hqmem := List.mem_of_find?_eq_some hfq
      have hnpos : 0 < gs2.total_player_num := by rw [hg2tot, htot]; omega
      have hqlt : q < gs2.players.length := by
        have := pollIdxs_lt gs2.total_player_num t q hqmem hnpos
        rw [hg2tot, htot] at this
        rw [hg2len]
        exact this
      have hqt : q ≠ t := by
        have hq2 := hq
        unfold challengePred at hq2
        simp only [Bool.and_eq_true, decide_eq_true_eq] at hq2
        exact hq2.1.1
      have hrole2 : (gs2.players.getD gs2.current_player_index dummyPlayer).has_hidden_role
          Role.contessa = true := by
        rw [hg2cpi, hg2c, lose_coin_has_hidden]
        exact hhid
      have hwr2 : O.willReveal gs2.current_player_index = true := by
        rw [hg2cpi]; exact hwr
      obtain ⟨deck2, pl2, heq, hc2, hid2, hlen2, hhid2, hdeck2⟩ :=
        exchange_single_card_spec gs2.deck
          (gs2.players.getD gs2.current_player_index dummyPlayer) Role.contessa O.sh
          hrole2 hsh
      have hdc := deal_challenge_reveal gs2 gs2.current_player_index q Role.contessa O
        deck2 pl2 true hrole2 hwr2 heq
      have h3 := targetedCounterPhase_challenged gs2 t O Role.contessa q _ false hrange
        hfind hpid hta2 hfq hdc
      simp only [Bool.not_false, if_true] at h3
      set inner : GameState :=
        { gs2 with deck := deck2, players := gs2.players.set gs2.current_player_index pl2 }
        with hinner
      set gs3 := inner.updP q (fun p => p.lose_influence (O.pick q)) with hgs3
      have hinner_players : inner.players = gs2.players.set gs2.current_player_index pl2 := by
        rw [hinner]
      have hinner_len : inner.players.length = gs2.players.length := by
        rw [hinner_players]
        exact List.length_set gs2.players _ _
      have hclt : gs.current_player_index < inner.players.length := by
        rw [hinner_len, hg2len]; exact hc
      have hinner_c : inner.players.getD gs.current_player_index dummyPlayer = pl2 := by
        rw [hinner_players, hg2cpi]
        exact getD_set_self gs2.players _ pl2 (by rw [hg2len]; exact hc)
      have hinner_t : inner.players.getD t dummyPlayer = gs.players.getD t dummyPlayer := by
        rw [hinner_players]
        rw [getD_set_ne gs2.players _ t pl2 (by rw [hg2cpi]; exact htc)]
        exact hg2t
      have hcoins3 : (gs3.players.getD gs.current_player_index dummyPlayer).coins
          = pl2.coins := by
        by_cases hqc : q = gs.current_player_index
        · rw [hgs3, ← hqc, getD_updP_self inner q _ (by rw [hqc]; exact hclt)]
          rw [lose_influence_coins, hqc, hinner_c]
        · rw [hgs3, getD_updP_ne inner q _ _ (fun hh => hqc hh.symm), hinner_c]
      have htgt3 : gs3.players.getD t dummyPlayer = gs.players.getD t dummyPlayer := by
        rw [hgs3, getD_updP_ne inner q t _ (fun hh => hqt hh.symm), hinner_t]
      refine ⟨gs3.advance, runTurn_targeted_cancelled gs gs2 _ O t hact htgt ht0 h1 h2 h3,
        ?_, ?_⟩
      · rw [advance_players, hcoins3, hc2, hg2cpi, hg2c, lose_coin_coins]
      · rw [advance_players, htgt3]

/-- Initial state for the C6 witness: actor seat 0 with exactly 3 coins,
target seat 1 holding CONTESSA, bystander seat 2. -/
def C6state : GameState :=
  ⟨[⟨0, "A", 3, [⟨Role.assassin, false⟩, ⟨Role.captain, false⟩]⟩,
    ⟨1, "B", 2, [⟨Role.contessa, false⟩, ⟨Role.duke, false⟩]⟩,
    ⟨2, "C", 2, [⟨Role.duke, false⟩, ⟨Role.duke, false⟩]⟩],
   [Role.duke], 0, 1, 3⟩

/-- Decisions for the C6 witness: ASSASSINATE player 1, no challenges
anywhere, target counters with CONTESSA. -/
def C6oracle : Oracles :=
  { act := ActionType.assassinate
    tgt := some 1
    chal := fun _ _ _ => false
    willReveal := fun _ => false
    pick := fun _ => 0
    tAnswer := fun i _a => if i == 1 then some Role.contessa else none
    select := fun _ _ _ => []
    sh := id }

/-- Witness for C6 at the concrete state. -/
theorem C6_assassinate_cost_not_refunded_witness :
    ∃ gsx, runTurn C6state C6oracle = Except.ok (gsx, TurnOutcome.cancelled) ∧
      (gsx.players.getD C6state.current_player_index dummyPlayer).coins
        = (C6state.players.getD C6state.current_player_index dummyPlayer).coins - 3 ∧
      (gsx.players.getD 1 dummyPlayer).influence
        = (C6state.players.getD 1 dummyPlayer).influence := by
  refine C6_assassinate_cost_not_refunded C6state C6oracle 1 (by decide) (by decide)
    ?_ rfl rfl (by decide) (by decide) (by decide) (by decide) (fun i => rfl) rfl
    (Or.inl (fun i => rfl))
  intro i hi
  have h3 : i < 3 := by simpa [C6state] using hi
  interval_cases i <;> decide

/-- State for the C8 counterexample: seat 1 on turn with 3 coins. -/
def C8state : GameState :=
  ⟨[⟨0, "A", 2, [⟨Role.duke, false⟩, ⟨Role.duke, false⟩]⟩,
    ⟨1, "B", 3, [⟨Role.assassin, false⟩, ⟨Role.captain, false⟩]⟩,
    ⟨2, "C", 2, [⟨Role.contessa, false⟩, ⟨Role.duke, false⟩]⟩],
   [], 1, 1, 3⟩

/-- Decisions for the C8 counterexample: the decision-maker returns the
actor itself as the ASSASSINATE target; nobody challenges or counters. -/
def C8oracle : Oracles :=
  { act := ActionType.assassinate
    tgt := some 1
    chal := fun _ _ _ => false
    willReveal := fun _ => false
    pick := fun _ => 0
    tAnswer := fun _ _ => none
    select := fun _ _ _ => []
    sh := id }

/-- C8 counterexample: a self-targeted ASSASSINATE is never rejected —
no InvalidTargetError, no validation of any kind: the turn runs through
the claim-challenge, cost and counter phases (the actor declines its own
counter and no bystander declares one) into execution, so the actor pays
3 coins and then loses one of its own influences. -/
theorem C8_counterexample_self_target_executes :
    C8oracle.tgt = some C8state.current_player_index ∧
    (runTurn C8state C8oracle).toOption.map (fun x =>
        (x.2,
         (x.1.players.getD 1 dummyPlayer).coins,
         (x.1.players.getD 1 dummyPlayer).get_hidden_cards.length))
      = some (TurnOutcome.executed, 0, 1) := by
  decide

/-- C8 (amended): the engine performs no target validation in the
Selection phase: a target id referring to the actor is accepted, the turn
passes the claim-challenge, cost and counter phases without any error —
the actor is asked to counter its own action, declines, the bystander
poll finds no counter — and the executor runs against the actor after the
cost is charged.  The only engine-side check on a target id is the range
test inside `get_player_by_id`. -/
theorem C8_amended_no_target_validation (gs : GameState) (O : Oracles)
    (htot : gs.total_player_num = gs.players.length)
    (hc : gs.current_player_index < gs.players.length)
    (hc0 : gs.current_player_index ≠ 0)
    (hid : ∀ i, i < gs.players.length → (gs.players.getD i dummyPlayer).player_id = i)
    (hact : O.act = ActionType.assassinate)
    (htgt : O.tgt = some gs.current_player_index)
    (hcoins : 3 ≤ (gs.players.getD gs.current_player_index dummyPlayer).coins)
    (halive : 0 < (gs.players.getD gs.current_player_index
        dummyPlayer).get_hidden_cards.length)
    (hch1 : ∀ i, O.chal i (gs.players.getD gs.current_player_index dummyPlayer).player_id
        Role.assassin = false)
    (hta : ∀ j, O.tAnswer j ActionType.assassinate = none) :
    ∃ gsx, runTurn gs O = Except.ok (gsx, TurnOutcome.executed) ∧
      (gsx.players.getD gs.current_player_index dummyPlayer).coins
        = (gs.players.getD gs.current_player_index dummyPlayer).coins - 3 ∧
      (gsx.players.getD gs.current_player_index dummyPlayer).get_hidden_cards.length + 1
        = (gs.players.getD gs.current_player_index
            dummyPlayer).get_hidden_cards.length := by
  have h1 : claimChallengePhase gs O = Except.ok (gs, true) :=
    claimChallengePhase_silent gs O Role.assassin (by rw [hact]; rfl) hch1
  have h2 : GameManager.process_action_cost gs gs.current_player_index O.act
      = Except.ok (gs.updP gs.current_player_index (fun q => q.lose_coin 3)) := by
    rw [hact]
    exact process_action_cost_pays gs gs.current_player_index ActionType.assassinate 3 rfl
      (by norm_num) (by omega)
  set gs2 := gs.updP gs.current_player_index (fun q => q.lose_coin 3) with hgs2
  have hg2len : gs2.players.length = gs.players.length := by rw [hgs2]; exact updP_length gs _ _
  have hg2tot : gs2.total_player_num = gs.total_player_num := by rw [hgs2]; rfl
  have hg2id : ∀ i, i < gs2.players.length → (gs2.players.getD i dummyPlayer).player_id = i := by
    intro i hi
    rw [hg2len] at hi
    by_cases he : i = gs.current_player_index
    · subst he
      rw [hgs2, getD_updP_self gs _ _ hc, lose_coin_id]
      exact hid _ hi
    · rw [hgs2, getD_updP_ne gs _ i _ he]
      exact hid i hi
  have hg2c : gs2.players.getD gs.current_player_index dummyPlayer
      = (gs.players.getD gs.current_player_index dummyPlayer).lose_coin 3 := by
    rw [hgs2]; exact getD_updP_self gs _ _ hc
  have hcn2 : gs.current_player_index < gs2.players.length := by rw [hg2len]; exact hc
  have hrange : gs.current_player_index < gs2.total_player_num := by
    rw [hg2tot, htot]; exact hc
  have hfind : findPlayerIdx gs2.players gs.current_player_index = some gs.current_player_index :=
    findPlayerIdx_id _ _ hg2id hcn2
  have hpid : (gs2.players.getD gs.current_player_index dummyPlayer).player_id
      = gs.current_player_index := hg2id _ hcn2
  have hta2 : O.tAnswer gs.current_player_index O.act = none := by
    rw [hact]; exact hta gs.current_player_index
  have h3a : targetedCounterPhase gs2 gs.current_player_index O
      = undirectedCounterPhase gs2 O :=
    targetedCounterPhase_decline gs2 gs.current_player_index O hrange hfind hpid hta2
      (by rw [hact]; rfl)
  have h3b : undirectedCounterPhase gs2 O = Except.ok (gs2, true) :=
    undirectedCounterPhase_silent gs2 O (fun j => by rw [hact]; exact hta j)
  have h3 : targetedCounterPhase gs2 gs.current_player_index O = Except.ok (gs2, true) :=
    h3a.trans h3b
  have h4 : GameManager.execute_action gs2 O
      = Except.ok (gs2.updP gs.current_player_index
          (fun p => p.lose_influence (O.pick gs.current_player_index)), true) :=
    execute_action_assassinate gs2 O gs.current_player_index hact htgt hrange hfind
  have hrun := runTurn_targeted_executed gs gs2 _ O gs.current_player_index true hact htgt
    hc0 h1 h2 h3 h4
  set gs3 := gs2.updP gs.current_player_index
    (fun p => p.lose_influence (O.pick gs.current_player_index)) with hgs3
  have hg3c : gs3.players.getD gs.current_player_index dummyPlayer
      = (gs2.players.getD gs.current_player_index dummyPlayer).lose_influence
          (O.pick gs.current_player_index) := by
    rw [hgs3]
    exact getD_updP_self gs2 _ _ hcn2
  have hhidpos : 0 < (gs2.players.getD gs.current_player_index
      dummyPlayer).get_hidden_cards.length := by
    rw [hg2c, lose_coin_hidden]
    exact halive
  refine ⟨gs3.advance, hrun, ?_, ?_⟩
  · rw [advance_players, hg3c, lose_influence_coins, hg2c, lose_coin_coins]
  · rw [advance_players, hg3c]
    have := lose_influence_hidden_count (gs2.players.getD gs.current_player_index dummyPlayer)
      (O.pick gs.current_player_index) hhidpos
    rw [this, hg2c, lose_coin_hidden]

/-- Witness for the amended C8 at the concrete self-target state. -/
theorem C8_amended_no_target_validation_witness :
    ∃ gsx, runTurn C8state C8oracle = Except.ok (gsx, TurnOutcome.executed) ∧
      (gsx.players.getD C8state.current_player_index dummyPlayer).coins
        = (C8state.players.getD C8state.current_player_index dummyPlayer).coins - 3 ∧
      (gsx.players.getD C8state.current_player_index dummyPlayer).get_hidden_cards.length + 1
        = (C8state.players.getD C8state.current_player_index
            dummyPlayer).get_hidden_cards.length := by
  refine C8_amended_no_target_validation C8state C8oracle (by decide) (by decide)
    (by decide) ?_ rfl rfl (by decide) (by decide) (fun i => rfl) (fun j => rfl)
  intro i hi
  have h3 : i < 3 := by simpa [C8state] using hi
  interval_cases i <;> decide
